import Mathlib

/-!
Shallow embedding of the four-fingers video-filter pipeline
(`src/app.js` MatrixFilter, `src/unnamed/part_001` ArcherFilter,
`src/unnamed/part_002` WakingLifeFilter).

JavaScript numbers are modelled as exact rationals (`ℚ`); the one
transcendental operation, `Math.pow` with a real exponent in
`MatrixFilter.getBrightnessAt`, is modelled over `ℝ` with `Real.rpow`.
`Math.sqrt` (used only to fill the Archer edge buffer) is kept abstract
as a function parameter `sq : ℚ → ℚ`; the theorems that need it only
use the value `sq 0`, pinned by the hypothesis `sq 0 = 0`, which agrees
with `Math.sqrt 0 = 0`.  Typed-array stores are modelled without the
final byte rounding of `Uint8ClampedArray` (all the concrete values the
theorems evaluate are already integers).
-/

/-- JS `Math.round`: round half away from minus infinity, i.e. `⌊q + 1/2⌋`. -/
def jsRound (q : ℚ) : ℤ := ⌊q + 1/2⌋

/-- Channel quantization shared by `ArcherFilter.draw` (part_001 lines 106-111)
and `WakingLifeFilter.draw` (part_002 lines 255-264):
`step = 255 / (levels - 1)`, `v ↦ Math.round(v / step) * step`. -/
def quantize (levels : ℕ) (v : ℚ) : ℚ :=
  (jsRound (v / (255 / ((levels : ℚ) - 1))) : ℚ) * (255 / ((levels : ℚ) - 1))

/-- `WakingLifeFilter.noise2D` (part_002 lines 59-79).  The 512×512 noise
table is modelled as a total function on flat indices. -/
def noise2D (x y : ℚ) (table : ℕ → ℚ) : ℚ :=
  let size : ℕ := 512
  let xi : ℕ := (⌊|x|⌋).toNat % size
  let yi : ℕ := (⌊|y|⌋).toNat % size
  let xf : ℚ := x - ⌊x⌋
  let yf : ℚ := y - ⌊y⌋
  let n00 := table (yi * size + xi)
  let n10 := table (yi * size + ((xi + 1) % size))
  let n01 := table (((yi + 1) % size) * size + xi)
  let n11 := table (((yi + 1) % size) * size + ((xi + 1) % size))
  let sx := xf * xf * (3 - 2 * xf)
  let sy := yf * yf * (3 - 2 * yf)
  let nx0 := n00 * (1 - sx) + n10 * sx
  let nx1 := n01 * (1 - sx) + n11 * sx
  nx0 * (1 - sy) + nx1 * sy

/-- `WakingLifeFilter.fbm` (part_002 lines 82-96): accumulate
(value, amplitude, frequency, maxValue) over the octave loop, then
normalize by the total amplitude. -/
def fbm (x y : ℚ) (table : ℕ → ℚ) (octaves : ℕ) : ℚ :=
  let r := (List.range octaves).foldl
    (fun (acc : ℚ × ℚ × ℚ × ℚ) _ =>
      (acc.1 + acc.2.1 * noise2D (x * acc.2.2.1) (y * acc.2.2.1) table,
        acc.2.1 * 0.5, acc.2.2.1 * 2, acc.2.2.2 + acc.2.1))
    (0, 0.5, 1, 0)
  r.1 / r.2.2.2

/-- `WakingLifeFilter.getMotionAt` (part_002 lines 143-158).  The motion
map is `Option`al like the `null`-initialized field; pixel coordinates in
the draw loop are the nonnegative ints `0 ≤ x < width`, `0 ≤ y < height`,
so the `gx < 0 || gy < 0` guard of the source is vacuous here. -/
def getMotionAt (motionMap : Option (ℕ → ℚ)) (globalMotion : ℚ)
    (x y width height : ℕ) : ℚ :=
  match motionMap with
  | none => globalMotion
  | some m =>
    let gridW := width / 16
    let gridH := height / 16
    let gx := x / 16
    let gy := y / 16
    if gx < gridW ∧ gy < gridH then m (gy * gridW + gx) else globalMotion

/-- The per-pixel motion multiplier of `WakingLifeFilter.draw`
(part_002 line 210): `1 + localMotion * 15 + globalMotion * 8`. -/
def motionMultiplier (motionMap : Option (ℕ → ℚ)) (globalMotion : ℚ)
    (x y width height : ℕ) : ℚ :=
  1 + getMotionAt motionMap globalMotion x y width height * 15 + globalMotion * 8

/-- The brightness post-processing of `MatrixFilter.getBrightnessAt`
(app.js lines 383-388): contrast scaling about 0.5, clamp to [0,1], then
`Math.pow(brightness, 2 - brightnessSensitivity / 5)` (modelled with the
real power `Real.rpow`, which agrees with `Math.pow` on a positive base). -/
noncomputable def adjustBrightness (contrast sensitivity b : ℝ) : ℝ :=
  max 0 (min 1 ((b - 0.5) * (contrast / 5) + 0.5)) ^ (2 - sensitivity / 5)

/-- A Matrix rain stream (app.js lines 331-338): column, fractional head
position, fall speed, trail length. -/
structure MatrixStream where
  x : ℕ
  y : ℚ
  speed : ℚ
  length : ℚ

/-- The per-stream step of `MatrixFilter.updateStreams` (app.js lines
407-423): advance the head by `speed * (fallSpeed / 5) * (0.5 + avg * 1.5)`;
past `gridHeight + length`, reset to `-length` (the pre-reset length) and
re-randomize speed and length from the two `Math.random()` draws `r1 r2`. -/
def updateStream (fallSpeed gridHeight avgBrightness r1 r2 : ℚ)
    (s : MatrixStream) : MatrixStream :=
  let y1 := s.y + s.speed * (fallSpeed / 5) * (0.5 + avgBrightness * 1.5)
  if y1 - s.length > gridHeight then
    { s with
      y := -s.length
      speed := 0.3 + r1 * 0.4
      length := 5 + ((⌊r2 * 15⌋ : ℤ) : ℚ) }
  else
    { s with y := y1 }

/-- A Matrix explosion particle (app.js lines 457-467). -/
structure Particle where
  x : ℚ
  y : ℚ
  vx : ℚ
  vy : ℚ
  life : ℚ
  decay : ℚ
  char : ℕ
  isWhite : Bool
  hasGravity : Bool

/-- The per-particle step of `MatrixFilter.updateExplosions` (app.js lines
475-486): integrate velocity, add gravity when flagged, decay life, and
with probability 0.05 (random draw `r`) replace the glyph by `c`. -/
def stepParticle (r : ℚ) (c : ℕ) (p : Particle) : Particle :=
  { p with
    x := p.x + p.vx,
    y := p.y + p.vy,
    vy := if p.hasGravity then p.vy + 0.02 else p.vy,
    life := p.life - p.decay,
    char := if r < 0.05 then c else p.char }

/-- Step every particle (with its own random draw, indexed by its
position in the pool) and remove the exhausted (`life ≤ 0`) ones; order
is preserved, as in the backwards `splice` loop of the source. -/
def stepParticles (rnd : ℕ → ℚ × ℕ) (ps : List Particle) : List Particle :=
  (ps.enum.map fun ip => stepParticle (rnd ip.1).1 (rnd ip.1).2 ip.2).filter
    fun p => decide (¬ p.life ≤ 0)

/-- `MatrixFilter.updateExplosions` (app.js lines 471-496): step and cull
the pool, then `splice(0, length - 500)` when it exceeds 500, dropping
the front (oldest) particles. -/
def updateExplosions (rnd : ℕ → ℚ × ℕ) (ps : List Particle) : List Particle :=
  let l := stepParticles rnd ps
  if 500 < l.length then l.drop (l.length - 500) else l

/-- The motion-detection state of `WakingLifeFilter` (part_002 lines
44-47): the block motion map, the previous captured frame (absent until
the first frame has been seen), and the smoothed global motion scalar. -/
structure MotionState where
  motionMap : ℕ → ℚ
  prevFrame : Option (ℕ → ℚ)
  globalMotion : ℚ

/-- The raw per-block motion of `WakingLifeFilter.detectMotion` (part_002
lines 117-125): mean absolute channel difference between the current and
previous frame at the block-center pixel `(gx*16 + 8, gy*16 + 8)`,
normalized by `255 * 3`. -/
def blockMotion (src prev : ℕ → ℚ) (width gx gy : ℕ) : ℚ :=
  let idx := ((gy * 16 + 8) * width + (gx * 16 + 8)) * 4
  (|src idx - prev idx| + |src (idx + 1) - prev (idx + 1)|
    + |src (idx + 2) - prev (idx + 2)|) / (255 * 3)

/-- `WakingLifeFilter.detectMotion` (part_002 lines 99-140).  On the
first frame only the previous frame is stored; afterwards each in-range
block index `i = gy*gridW + gx` is smoothed `0.7 old + 0.3 new` and the
global scalar `0.8 old + 0.2 avg`.  (The reallocation of a stale-sized
map to zeros is not modelled: the map is a total function here.) -/
def detectMotion (st : MotionState) (src : ℕ → ℚ) (width height : ℕ) :
    MotionState :=
  let gridW := width / 16
  let gridH := height / 16
  match st.prevFrame with
  | none => { st with prevFrame := some src }
  | some prev =>
    let newMap : ℕ → ℚ := fun i =>
      if i < gridW * gridH then
        st.motionMap i * 0.7 + blockMotion src prev width (i % gridW) (i / gridW) * 0.3
      else st.motionMap i
    let totalMotion := ∑ i ∈ Finset.range (gridW * gridH), newMap i
    { motionMap := newMap
      prevFrame := some src
      globalMotion := st.globalMotion * 0.8
        + totalMotion / ((gridW : ℚ) * (gridH : ℚ)) * 0.2 }

/-- The block update the claim describes, written from its words: the
normalized magnitude of the luma difference (luma = 0.299 R + 0.587 G +
0.114 B) between the frames at the block center.  Used only to compare
the claim against `blockMotion`, which the code actually computes. -/
def lumaDiffMotion (src prev : ℕ → ℚ) (width gx gy : ℕ) : ℚ :=
  let idx := ((gy * 16 + 8) * width + (gx * 16 + 8)) * 4
  |(src idx - prev idx) * 0.299 + (src (idx + 1) - prev (idx + 1)) * 0.587
    + (src (idx + 2) - prev (idx + 2)) * 0.114| / 255

/-- A 16×16 frame that is black except a red block-center pixel, and a
state that has already captured an all-black frame. -/
def redCenterFrame : ℕ → ℚ := fun i => if i = 544 then 255 else 0

/-- A motion state holding an all-black previous frame, an all-zero
motion map and zero global motion. -/
def blackMotionState : MotionState :=
  { motionMap := fun _ => 0, prevFrame := some fun _ => 0, globalMotion := 0 }

/-- The Archer (cel-shade) filter settings (part_001 lines 15-19). -/
structure ArcherParams where
  edgeThickness : ℚ
  colorLevels : ℕ
  shadowIntensity : ℚ
  highlightBoost : ℚ
  saturationBoost : ℚ

/-- The Archer defaults from the constructor (part_001 lines 15-19). -/
def defaultArcher : ArcherParams :=
  { edgeThickness := 3, colorLevels := 6, shadowIntensity := 5,
    highlightBoost := 5, saturationBoost := 6 }

/-- Luma of the RGBA buffer `src` at pixel (x, y) of a `w`-wide frame
(part_001 lines 66 and 73).  Buffers are total functions on flat signed
indices; the pixel passes only ever read in-bounds indices. -/
def lumAt (src : ℤ → ℚ) (w x y : ℤ) : ℚ :=
  src ((y * w + x) * 4) * 0.299 + src ((y * w + x) * 4 + 1) * 0.587
    + src ((y * w + x) * 4 + 2) * 0.114

/-- The Sobel X kernel entry at row offset ky, column offset kx
(part_001 line 22: `[[-1, 0, 1], [-2, 0, 2], [-1, 0, 1]]`). -/
def sobelX (ky kx : ℤ) : ℚ :=
  if ky = -1 then (if kx = -1 then -1 else if kx = 0 then 0 else if kx = 1 then 1 else 0)
  else if ky = 0 then (if kx = -1 then -2 else if kx = 0 then 0 else if kx = 1 then 2 else 0)
  else if ky = 1 then (if kx = -1 then -1 else if kx = 0 then 0 else if kx = 1 then 1 else 0)
  else 0

/-- The Sobel Y kernel entry at row offset ky, column offset kx
(part_001 line 23: `[[-1, -2, -1], [0, 0, 0], [1, 2, 1]]`). -/
def sobelY (ky kx : ℤ) : ℚ :=
  if ky = -1 then (if kx = -1 then -1 else if kx = 0 then -2 else if kx = 1 then -1 else 0)
  else if ky = 0 then 0
  else if ky = 1 then (if kx = -1 then 1 else if kx = 0 then 2 else if kx = 1 then 1 else 0)
  else 0

/-- The kernel-offset loop values `-1, 0, 1` of the Sobel convolution. -/
def kernelOffsets : List ℤ := [-1, 0, 1]

/-- The Sobel X response on the luma neighborhood (part_001 lines 69-77). -/
def gradX (src : ℤ → ℚ) (w x y : ℤ) : ℚ :=
  (kernelOffsets.map fun ky =>
    (kernelOffsets.map fun kx =>
      lumAt src w (x + kx) (y + ky) * sobelX ky kx).sum).sum

/-- The Sobel Y response on the luma neighborhood (part_001 lines 69-77). -/
def gradY (src : ℤ → ℚ) (w x y : ℤ) : ℚ :=
  (kernelOffsets.map fun ky =>
    (kernelOffsets.map fun kx =>
      lumAt src w (x + kx) (y + ky) * sobelY ky kx).sum).sum

/-- The edge buffer of `ArcherFilter.draw` (part_001 lines 53, 78-79):
zero-initialized, and `sqrt(gx² + gy²)` (the abstract `sq`) at the
interior pixels the first pass visits. -/
def edgesAt (sq : ℚ → ℚ) (src : ℤ → ℚ) (w h x y : ℤ) : ℚ :=
  if 1 ≤ x ∧ x < w - 1 ∧ 1 ≤ y ∧ y < h - 1 then
    sq (gradX src w x y * gradX src w x y + gradY src w x y * gradY src w x y)
  else 0

/-- The first-pass color processing of `ArcherFilter.draw` (part_001
lines 60-116) applied to one source pixel (r, g, b): saturation boost
around the luma, shadow/highlight contrast, N-level quantization, clamp. -/
def celPixel (P : ArcherParams) (r g b : ℚ) : ℚ × ℚ × ℚ :=
  let lum := r * 0.299 + g * 0.587 + b * 0.114
  let satMult := 1 + (P.saturationBoost - 5) * 0.15
  let r1 := lum + (r - lum) * satMult
  let g1 := lum + (g - lum) * satMult
  let b1 := lum + (b - lum) * satMult
  let shadowMult := P.shadowIntensity / 5
  let highlightMult := P.highlightBoost / 5
  let rgb2 :=
    if lum < 80 then
      (r1 * (0.7 + (1 - shadowMult) * 0.3), g1 * (0.7 + (1 - shadowMult) * 0.3),
        b1 * (0.7 + (1 - shadowMult) * 0.3))
    else if lum > 180 then
      (min 255 (r1 * (1 + (highlightMult - 1) * 0.2)),
        min 255 (g1 * (1 + (highlightMult - 1) * 0.2)),
        min 255 (b1 * (1 + (highlightMult - 1) * 0.2)))
    else (r1, g1, b1)
  (max 0 (min 255 (quantize P.colorLevels rgb2.1)),
    max 0 (min 255 (quantize P.colorLevels rgb2.2.1)),
    max 0 (min 255 (quantize P.colorLevels rgb2.2.2)))

/-- The output buffer after the first pass of `ArcherFilter.draw`
(part_001 lines 49-123): `createImageData` starts all-zero, and only
interior pixels (1 ≤ x < w-1, 1 ≤ y < h-1) are written, with alpha 255. -/
def pass1At (P : ArcherParams) (src : ℤ → ℚ) (w h x y : ℤ) (c : ℕ) : ℚ :=
  if 1 ≤ x ∧ x < w - 1 ∧ 1 ≤ y ∧ y < h - 1 then
    let rgb := celPixel P (src ((y * w + x) * 4)) (src ((y * w + x) * 4 + 1))
      (src ((y * w + x) * 4 + 2))
    if c = 0 then rgb.1 else if c = 1 then rgb.2.1
    else if c = 2 then rgb.2.2 else 255
  else 0

/-- The loop values `-t, ..., t` of the second-pass disc scan
(part_001 lines 135-136); empty when t < 0, like the JS loop. -/
def discOffsets (t : ℤ) : List ℤ :=
  (List.range (2 * t + 1).toNat).map fun k => -t + (k : ℤ)

/-- The disc maximum of the second pass (part_001 lines 133-143): the
source's `maxEdge` accumulator, taking the max over edge values within
euclidean distance `t` of (x, y), starting at 0 (the distance test
`sqrt(dx²+dy²) ≤ t` is written squared, which is equivalent for the
loop's nonnegative t). -/
def discMax (sq : ℚ → ℚ) (src : ℤ → ℚ) (w h t x y : ℤ) : ℚ :=
  (discOffsets t).foldl (fun acc dy =>
    (discOffsets t).foldl (fun acc2 dx =>
      if dx * dx + dy * dy ≤ t * t then
        max acc2 (edgesAt sq src w h (x + dx) (y + dy))
      else acc2) acc) 0

/-- The output buffer after both pixel passes of `ArcherFilter.draw`
(part_001 lines 125-155): pixels inset by `thickness = ⌊edgeThickness⌋`
whose disc maximum exceeds 30 have their color channels darkened by
`min 1 ((maxEdge - 30)/100) * 0.85`. -/
def archerOut (sq : ℚ → ℚ) (P : ArcherParams) (src : ℤ → ℚ) (w h x y : ℤ)
    (c : ℕ) : ℚ :=
  let t := ⌊P.edgeThickness⌋
  if (t ≤ x ∧ x < w - t ∧ t ≤ y ∧ y < h - t ∧ c < 3)
      ∧ 30 < discMax sq src w h t x y then
    pass1At P src w h x y c
      * (1 - min 1 ((discMax sq src w h t x y - 30) / 100) * 0.85)
  else pass1At P src w h x y c

/-- The neighbor offsets of `ArcherFilter.drawOutlines` (part_001 lines
184-189) at sampling step 2. -/
def outlineNeighbors : List (ℤ × ℤ) := [(2, 0), (0, 2), (2, 2), (-2, 2)]

/-- The sampling positions `step, 2*step, ...` below `limit - step` of
`ArcherFilter.drawOutlines` (part_001 lines 175-176), step = 2. -/
def outlineCoords (limit : ℤ) : List ℤ :=
  ((List.range limit.toNat).map fun k => (2 : ℤ) + 2 * (k : ℤ)).filter
    fun v => decide (v < limit - 2)

/-- The outline strokes drawn by `ArcherFilter.drawOutlines` (part_001
lines 164-213): a segment from (x, y) to an in-bounds neighbor is stroked
when both endpoints' edge values exceed the threshold 40. -/
def strokes (sq : ℚ → ℚ) (src : ℤ → ℚ) (w h : ℤ) : List (ℤ × ℤ × ℤ × ℤ) :=
  (outlineCoords h).flatMap fun y =>
    (outlineCoords w).flatMap fun x =>
      if 40 < edgesAt sq src w h x y then
        outlineNeighbors.filterMap fun n =>
          if (0 ≤ x + n.1 ∧ x + n.1 < w ∧ 0 ≤ y + n.2 ∧ y + n.2 < h)
              ∧ 40 < edgesAt sq src w h (x + n.1) (y + n.2) then
            some (x, y, x + n.1, y + n.2)
          else none
      else []

/-- A uniform-color opaque RGBA frame as a flat buffer: channel
`i % 4` of every pixel. -/
def uniformSrc (r g b : ℚ) : ℤ → ℚ := fun i =>
  if i % 4 = 0 then r else if i % 4 = 1 then g else if i % 4 = 2 then b else 255

/-- A stand-in for `Math.sqrt` that agrees with it at 0, the only point
the uniform-frame and border theorems read. -/
def sqZero : ℚ → ℚ := fun _ => 0

/-- The channel view of the first-pass color value of a (r, g, b) source
pixel, with alpha 255 — the common value every interior pixel of a
uniform frame receives. -/
def celChannel (P : ArcherParams) (r g b : ℚ) (c : ℕ) : ℚ :=
  if c = 0 then (celPixel P r g b).1 else if c = 1 then (celPixel P r g b).2.1
  else if c = 2 then (celPixel P r g b).2.2 else 255

/-- C6: quantizing a channel value to N levels with step 255/(N−1) and
then quantizing the result again with the same N returns the same value
(quantization is idempotent; N ≥ 2 so that the step is well defined). -/
theorem quantize_idempotent (N : ℕ) (v : ℚ) (hN : 2 ≤ N)
    (h0 : 0 ≤ v) (h255 : v ≤ 255) :
    quantize N (quantize N v) = quantize N v := by
  have hstep : (255 : ℚ) / ((N : ℚ) - 1) ≠ 0 := by
    have h1 : (1 : ℚ) ≤ (N : ℚ) - 1 := by
      have : (2 : ℚ) ≤ (N : ℚ) := by exact_mod_cast hN
      linarith
    positivity
  unfold quantize
  set step : ℚ := 255 / ((N : ℚ) - 1) with hs
  set k : ℤ := jsRound (v / step) with hk
  have hcancel : ((k : ℚ) * step) / step = (k : ℚ) :=
    mul_div_cancel_right₀ _ hstep
  rw [hcancel]
  have hround : jsRound ((k : ℚ)) = k := by
    unfold jsRound
    rw [add_comm, Int.floor_add_int]
    norm_num
  rw [hround]

/-- Helper: the floor of the rational absolute value of an integer is its
natural absolute value. -/
theorem toNat_floor_abs_intCast (a : ℤ) : (⌊|(a : ℚ)|⌋).toNat = a.natAbs := by
  rw [← Int.cast_abs, Int.floor_intCast, Int.abs_eq_natAbs]
  exact Int.toNat_natCast _

/-- Witness for C6 at N = 6, v = 100. -/
theorem quantize_idempotent_witness :
    2 ≤ 6 ∧ quantize 6 (quantize 6 100) = quantize 6 100 :=
  ⟨by norm_num, quantize_idempotent 6 100 (by norm_num) (by norm_num) (by norm_num)⟩

/-- C7: at integer lattice coordinates the smoothstep weights vanish and
`noise2D` returns exactly the table entry of the wrapped cell
(`⌊|x|⌋ % 512`, `⌊|y|⌋ % 512`), for every noise table. -/
theorem noise2D_integer_lattice (a b : ℤ) (table : ℕ → ℚ) :
    noise2D (a : ℚ) (b : ℚ) table
      = table ((b.natAbs % 512) * 512 + a.natAbs % 512) := by
  have hxf : (a : ℚ) - ⌊(a : ℚ)⌋ = 0 := by
    rw [Int.floor_intCast]; ring
  have hyf : (b : ℚ) - ⌊(b : ℚ)⌋ = 0 := by
    rw [Int.floor_intCast]; ring
  simp only [noise2D, hxf, hyf, toNat_floor_abs_intCast]
  ring

/-- C8: fractal Brownian motion with a single octave reduces to a single
noise sample under the same normalization: the only term is
`0.5 * noise2D (x*1) (y*1)` and the total amplitude is `0.5`. -/
theorem fbm_one_octave (x y : ℚ) (table : ℕ → ℚ) :
    fbm x y table 1 = noise2D x y table := by
  show (0 + 0.5 * noise2D (x * 1) (y * 1) table) / (0 + 0.5)
      = noise2D x y table
  rw [mul_one x, mul_one y]
  ring

/-- C9: with a motion map of all zeros and zero global motion, the
Rotoscope motion multiplier is its no-motion baseline 1 at every pixel
(the multiplier has no dependence on the tick counter). -/
theorem motionMultiplier_no_motion (m : ℕ → ℚ) (g : ℚ)
    (hm : ∀ i, m i = 0) (hg : g = 0) (x y width height : ℕ) :
    motionMultiplier (some m) g x y width height = 1 := by
  subst hg
  have hget : getMotionAt (some m) 0 x y width height = 0 := by
    show (if x / 16 < width / 16 ∧ y / 16 < height / 16
        then m (y / 16 * (width / 16) + x / 16) else 0) = 0
    split
    · exact hm _
    · rfl
  unfold motionMultiplier
  rw [hget]
  ring

/-- Witness for C9: the all-zero map and zero global motion at pixel
(3, 5) of a 64×48 canvas. -/
theorem motionMultiplier_no_motion_witness :
    motionMultiplier (some fun _ => 0) 0 3 5 64 48 = 1 :=
  motionMultiplier_no_motion (fun _ => 0) 0 (fun _ => rfl) rfl 3 5 64 48

/-- C2: after every completed `updateExplosions` step, for any prior pool
contents (hence any prior sequence of spawns and updates), the particle
pool has length at most 500, and the survivors kept are a suffix of the
stepped pool — trimming drops only the oldest (front) particles. -/
theorem updateExplosions_capped (rnd : ℕ → ℚ × ℕ) (ps : List Particle) :
    (updateExplosions rnd ps).length ≤ 500 ∧
      updateExplosions rnd ps <:+ stepParticles rnd ps := by
  rw [show updateExplosions rnd ps
      = if 500 < (stepParticles rnd ps).length
        then (stepParticles rnd ps).drop ((stepParticles rnd ps).length - 500)
        else stepParticles rnd ps from rfl]
  by_cases h2 : 500 < (stepParticles rnd ps).length
  · rw [if_pos h2]
    exact ⟨by rw [List.length_drop]; omega, List.drop_suffix _ _⟩
  · rw [if_neg h2]
    exact ⟨by omega, List.suffix_refl _⟩

/-- C1 counterexample: at sampled brightness 1/2, the neutral contrast 5
and brightnessSensitivity 15, the exponent `2 - 15/5 = -1` turns the
adjusted brightness into `(1/2)⁻¹ = 2`, outside `[0, 1]`, so the claim
fails for that parameter value. -/
theorem adjustBrightness_escapes :
    ¬ (0 ≤ adjustBrightness 5 15 (1/2) ∧ adjustBrightness 5 15 (1/2) ≤ 1) := by
  have h : adjustBrightness 5 15 (1/2) = ((1 : ℝ)/2) ^ ((-1 : ℤ) : ℝ) := by
    unfold adjustBrightness
    norm_num
  rw [h, Real.rpow_intCast] at *
  norm_num

/-- C1 amended: for every sampled brightness b ∈ [0,1], every contrast
value and every brightnessSensitivity ≤ 10 (so that the exponent
`2 - sensitivity/5` is nonnegative), the adjusted cell brightness lies
within [0,1]. -/
theorem adjustBrightness_mem_unit (contrast sensitivity b : ℝ)
    (hb0 : 0 ≤ b) (hb1 : b ≤ 1) (hs : sensitivity ≤ 10) :
    0 ≤ adjustBrightness contrast sensitivity b ∧
      adjustBrightness contrast sensitivity b ≤ 1 := by
  unfold adjustBrightness
  have h0 : (0 : ℝ) ≤ max 0 (min 1 ((b - 0.5) * (contrast / 5) + 0.5)) :=
    le_max_left 0 _
  have h1 : max 0 (min 1 ((b - 0.5) * (contrast / 5) + 0.5)) ≤ 1 :=
    max_le zero_le_one (min_le_left 1 _)
  have he : (0 : ℝ) ≤ 2 - sensitivity / 5 := by linarith
  exact ⟨Real.rpow_nonneg h0 _, Real.rpow_le_one h0 h1 he⟩

/-- Witness for the amended C1 at contrast 5, sensitivity 5, b = 1/2. -/
theorem adjustBrightness_mem_unit_witness :
    0 ≤ adjustBrightness 5 5 (1/2) ∧ adjustBrightness 5 5 (1/2) ≤ 1 :=
  adjustBrightness_mem_unit 5 5 (1/2) (by norm_num) (by norm_num) (by norm_num)

/-- C5: when the stepped head position overshoots `gridHeight + length`,
the stream resets to the negative position `-length ∈ [-19, 0)` (using the
pool invariant that the pre-reset trail length is in [5, 19]) and receives
a fresh speed in [0.3, 0.7) and a fresh integer trail length in [5, 19],
for any `Math.random()` draws r1, r2 ∈ [0, 1). -/
theorem updateStream_reset (fallSpeed gridHeight avgBrightness r1 r2 : ℚ)
    (s : MatrixStream)
    (hr1l : 0 ≤ r1) (hr1u : r1 < 1) (hr2l : 0 ≤ r2) (hr2u : r2 < 1)
    (hl5 : 5 ≤ s.length) (hl19 : s.length ≤ 19)
    (hover : s.y + s.speed * (fallSpeed / 5) * (0.5 + avgBrightness * 1.5)
      - s.length > gridHeight) :
    -19 ≤ (updateStream fallSpeed gridHeight avgBrightness r1 r2 s).y ∧
    (updateStream fallSpeed gridHeight avgBrightness r1 r2 s).y < 0 ∧
    0.3 ≤ (updateStream fallSpeed gridHeight avgBrightness r1 r2 s).speed ∧
    (updateStream fallSpeed gridHeight avgBrightness r1 r2 s).speed < 0.7 ∧
    ∃ n : ℤ, (updateStream fallSpeed gridHeight avgBrightness r1 r2 s).length
      = (n : ℚ) ∧ 5 ≤ n ∧ n ≤ 19 := by
  have hs : updateStream fallSpeed gridHeight avgBrightness r1 r2 s
      = { s with
          y := -s.length
          speed := 0.3 + r1 * 0.4
          length := 5 + ((⌊r2 * 15⌋ : ℤ) : ℚ) } := by
    unfold updateStream
    rw [if_pos hover]
  rw [hs]
  refine ⟨by simpa using neg_le_neg hl19, by simp; linarith, ?_, ?_, ?_⟩
  · show (0.3 : ℚ) ≤ 0.3 + r1 * 0.4
    nlinarith
  · show (0.3 : ℚ) + r1 * 0.4 < 0.7
    nlinarith
  · refine ⟨5 + ⌊r2 * 15⌋, by push_cast; ring, ?_, ?_⟩
    · have : (0 : ℤ) ≤ ⌊r2 * 15⌋ := Int.floor_nonneg.mpr (by nlinarith)
      omega
    · have : ⌊r2 * 15⌋ < 15 := Int.floor_lt.mpr (by push_cast; nlinarith)
      omega

/-- Witness for C5: a stream of length 5 at head 30 in a 10-row grid,
with draws r1 = 0, r2 = 1/2. -/
theorem updateStream_reset_witness :
    -19 ≤ (updateStream 5 10 0 0 (1/2) ⟨0, 30, 1/2, 5⟩).y ∧
    (updateStream 5 10 0 0 (1/2) ⟨0, 30, 1/2, 5⟩).y < 0 ∧
    0.3 ≤ (updateStream 5 10 0 0 (1/2) ⟨0, 30, 1/2, 5⟩).speed ∧
    (updateStream 5 10 0 0 (1/2) ⟨0, 30, 1/2, 5⟩).speed < 0.7 ∧
    ∃ n : ℤ, (updateStream 5 10 0 0 (1/2) ⟨0, 30, 1/2, 5⟩).length
      = (n : ℚ) ∧ 5 ≤ n ∧ n ≤ 19 :=
  updateStream_reset 5 10 0 0 (1/2) ⟨0, 30, 1/2, 5⟩ (by norm_num) (by norm_num)
    (by norm_num) (by norm_num) (by norm_num) (by norm_num) (by norm_num)

/-- C4 counterexample: on a 16×16 frame whose single 1-block center pixel
changes from black to pure red, the code smooths in the mean channel
difference 255/765 = 1/3 (new value 0.1), not the claimed normalized luma
difference 0.299 (which would give 0.0897). -/
theorem detectMotion_not_luma :
    (detectMotion blackMotionState redCenterFrame 16 16).motionMap 0
      ≠ blackMotionState.motionMap 0 * 0.7
        + lumaDiffMotion redCenterFrame (fun _ => 0) 16 0 0 * 0.3 := by
  have hL : (detectMotion blackMotionState redCenterFrame 16 16).motionMap 0
      = 1/10 := by
    simp only [detectMotion, blackMotionState]
    norm_num [blockMotion, redCenterFrame]
  rw [hL]
  simp only [blackMotionState]
  norm_num [lumaDiffMotion, redCenterFrame,
    abs_of_nonneg (show (0 : ℚ) ≤ 15249/200 by norm_num)]

/-- C4 amended: for every tick after the first captured frame, each
in-range MotionMap block value is updated to 0.7 times its previous value
plus 0.3 times the mean normalized absolute channel difference
(|ΔR| + |ΔG| + |ΔB|)/(255·3) between the current and previous frame
sampled at that block's center. -/
theorem detectMotion_block_update (st : MotionState) (src prev : ℕ → ℚ)
    (width height gx gy : ℕ) (hprev : st.prevFrame = some prev)
    (hgx : gx < width / 16) (hgy : gy < height / 16) :
    (detectMotion st src width height).motionMap (gy * (width / 16) + gx)
      = st.motionMap (gy * (width / 16) + gx) * 0.7
        + blockMotion src prev width gx gy * 0.3 := by
  set gridW := width / 16 with hW
  set gridH := height / 16 with hH
  have hWpos : 0 < gridW := by omega
  have hidx : gy * gridW + gx < gridW * gridH := by
    calc gy * gridW + gx < gy * gridW + gridW := by omega
    _ = (gy + 1) * gridW := by ring
    _ ≤ gridH * gridW := Nat.mul_le_mul_right _ (by omega)
    _ = gridW * gridH := Nat.mul_comm _ _
  have hmod : (gy * gridW + gx) % gridW = gx := by
    rw [Nat.mul_comm gy gridW, Nat.mul_add_mod]
    exact Nat.mod_eq_of_lt hgx
  have hdiv : (gy * gridW + gx) / gridW = gy := by
    rw [Nat.mul_comm gy gridW, Nat.mul_add_div hWpos, Nat.div_eq_of_lt hgx]
    omega
  unfold detectMotion
  rw [hprev]
  simp only
  rw [if_pos hidx, hmod, hdiv]

/-- Witness for the amended C4: the black-to-red frame pair at block
(0, 0) of a 16×16 canvas. -/
theorem detectMotion_block_update_witness :
    (detectMotion blackMotionState redCenterFrame 16 16).motionMap
        (0 * (16 / 16) + 0)
      = blackMotionState.motionMap (0 * (16 / 16) + 0) * 0.7
        + blockMotion redCenterFrame (fun _ => 0) 16 0 0 * 0.3 :=
  detectMotion_block_update blackMotionState redCenterFrame (fun _ => 0)
    16 16 0 0 rfl (by norm_num) (by norm_num)

/-- Helper: the red channel of a uniform frame at any pixel base index. -/
theorem uniformSrc_at0 (r g b : ℚ) (k : ℤ) : uniformSrc r g b (k * 4) = r := by
  unfold uniformSrc
  rw [if_pos (by omega)]

/-- Helper: the green channel of a uniform frame. -/
theorem uniformSrc_at1 (r g b : ℚ) (k : ℤ) :
    uniformSrc r g b (k * 4 + 1) = g := by
  unfold uniformSrc
  rw [if_neg (by omega), if_pos (by omega)]

/-- Helper: the blue channel of a uniform frame. -/
theorem uniformSrc_at2 (r g b : ℚ) (k : ℤ) :
    uniformSrc r g b (k * 4 + 2) = b := by
  unfold uniformSrc
  rw [if_neg (by omega), if_neg (by omega), if_pos (by omega)]

/-- Helper: the luma of a uniform frame is the same at every pixel. -/
theorem lumAt_uniform (r g b : ℚ) (w x y : ℤ) :
    lumAt (uniformSrc r g b) w x y = r * 0.299 + g * 0.587 + b * 0.114 := by
  unfold lumAt
  rw [uniformSrc_at0, uniformSrc_at1, uniformSrc_at2]

/-- Helper: the Sobel X response vanishes on a uniform frame. -/
theorem gradX_uniform (r g b : ℚ) (w x y : ℤ) :
    gradX (uniformSrc r g b) w x y = 0 := by
  simp only [gradX, kernelOffsets, List.map_cons, List.map_nil, List.sum_cons,
    List.sum_nil, lumAt_uniform]
  norm_num [sobelX]
  ring

/-- Helper: the Sobel Y response vanishes on a uniform frame. -/
theorem gradY_uniform (r g b : ℚ) (w x y : ℤ) :
    gradY (uniformSrc r g b) w x y = 0 := by
  simp only [gradY, kernelOffsets, List.map_cons, List.map_nil, List.sum_cons,
    List.sum_nil, lumAt_uniform]
  norm_num [sobelY]
  ring

/-- Helper: on a uniform frame the whole edge buffer is zero (the
interior entries are `sq 0`, the border entries their initial 0). -/
theorem edgesAt_uniform (sq : ℚ → ℚ) (hsq : sq 0 = 0) (r g b : ℚ)
    (w h x y : ℤ) : edgesAt sq (uniformSrc r g b) w h x y = 0 := by
  unfold edgesAt
  split
  · rw [gradX_uniform, gradY_uniform]
    simpa using hsq
  · rfl

/-- Helper: a fold whose step fixes every nonnegative accumulator fixes
the accumulator. -/
theorem foldl_id_of_nonneg (f : ℚ → ℤ → ℚ)
    (hf : ∀ a d, 0 ≤ a → f a d = a) :
    ∀ (l : List ℤ) (acc : ℚ), 0 ≤ acc → l.foldl f acc = acc := by
  intro l
  induction l with
  | nil => intro acc _; rfl
  | cons d ds ih =>
    intro acc hacc
    rw [List.foldl_cons, hf acc d hacc]
    exact ih acc hacc

/-- Helper: the disc maximum over an all-zero edge buffer stays at its
initial 0, for every thickness. -/
theorem discMax_uniform_zero (sq : ℚ → ℚ) (hsq : sq 0 = 0) (r g b : ℚ)
    (w h t x y : ℤ) : discMax sq (uniformSrc r g b) w h t x y = 0 := by
  unfold discMax
  apply foldl_id_of_nonneg _ _ _ 0 le_rfl
  intro a dy ha
  apply foldl_id_of_nonneg _ _ _ a ha
  intro a2 dx ha2
  split
  · rw [edgesAt_uniform sq hsq, max_eq_left ha2]
  · rfl

/-- Helper: the first pass writes the common cel-shaded value at every
interior pixel of a uniform frame. -/
theorem pass1At_uniform (P : ArcherParams) (r g b : ℚ) (w h x y : ℤ)
    (c : ℕ) (hx1 : 1 ≤ x) (hx2 : x < w - 1) (hy1 : 1 ≤ y) (hy2 : y < h - 1) :
    pass1At P (uniformSrc r g b) w h x y c = celChannel P r g b c := by
  unfold pass1At celChannel
  rw [if_pos ⟨hx1, hx2, hy1, hy2⟩]
  rw [uniformSrc_at0, uniformSrc_at1, uniformSrc_at2]

/-- Helper: the first pass leaves every border pixel at its initial 0 in
all four channels, for every source frame. -/
theorem pass1At_border (P : ArcherParams) (src : ℤ → ℚ) (w h x y : ℤ)
    (c : ℕ) (hb : x = 0 ∨ y = 0 ∨ x = w - 1 ∨ y = h - 1) :
    pass1At P src w h x y c = 0 := by
  unfold pass1At
  rw [if_neg]
  rcases hb with h1 | h1 | h1 | h1 <;> (intro hc; omega)

/-- Helper: both pixel passes leave every border pixel at 0: the second
pass can only scale the first pass's value, and that value is 0 there. -/
theorem archerOut_border_zero (sq : ℚ → ℚ) (P : ArcherParams)
    (src : ℤ → ℚ) (w h x y : ℤ) (c : ℕ)
    (hb : x = 0 ∨ y = 0 ∨ x = w - 1 ∨ y = h - 1) :
    archerOut sq P src w h x y c = 0 := by
  have hp := pass1At_border P src w h x y c hb
  simp only [archerOut]
  split
  · rw [hp, zero_mul]
  · exact hp

/-- Helper: a flat-map all of whose fibers are empty is empty. -/
theorem flatMap_eq_nil_of_forall {α β : Type} (l : List α) (f : α → List β)
    (hf : ∀ a, f a = []) : l.flatMap f = [] := by
  induction l with
  | nil => rfl
  | cons a as ih =>
    show f a ++ as.flatMap f = []
    rw [hf a, ih]
    rfl

/-- Helper: on a uniform frame no outline stroke passes the threshold. -/
theorem strokes_uniform_nil (sq : ℚ → ℚ) (hsq : sq 0 = 0) (r g b : ℚ)
    (w h : ℤ) : strokes sq (uniformSrc r g b) w h = [] := by
  unfold strokes
  apply flatMap_eq_nil_of_forall
  intro y
  apply flatMap_eq_nil_of_forall
  intro x
  rw [edgesAt_uniform sq hsq, if_neg (by norm_num)]

/-- C3 counterexample: on the uniform pure-red 3×3 frame with the default
settings, the interior output pixel (1,1) is 204 — the quantization of
the saturation/shadow-adjusted red, not of the input red (255) — and the
border pixel (0,0) is 0; both differ from the nearest quantization level
of the input color, so the claim fails as stated. -/
theorem archerOut_uniform_not_input_level :
    archerOut sqZero defaultArcher (uniformSrc 255 0 0) 3 3 1 1 0
      ≠ quantize 6 255 ∧
    archerOut sqZero defaultArcher (uniformSrc 255 0 0) 3 3 0 0 0
      ≠ quantize 6 255 := by
  have hq : quantize 6 255 = 255 := by norm_num [quantize, jsRound]
  have ht : ⌊defaultArcher.edgeThickness⌋ = 3 := by norm_num [defaultArcher]
  constructor
  · have h1 : archerOut sqZero defaultArcher (uniformSrc 255 0 0) 3 3 1 1 0
        = 204 := by
      simp only [archerOut, ht]
      rw [if_neg (fun hc => absurd hc.1.1 (by norm_num))]
      rw [pass1At_uniform defaultArcher 255 0 0 3 3 1 1 0 (by norm_num)
        (by norm_num) (by norm_num) (by norm_num)]
      norm_num [celChannel, celPixel, quantize, jsRound, defaultArcher]
    rw [h1, hq]
    norm_num
  · rw [archerOut_border_zero sqZero defaultArcher (uniformSrc 255 0 0)
      3 3 0 0 0 (Or.inl rfl), hq]
    norm_num

/-- C3 amended: on a uniform-color source frame `ArcherFilter.draw`
produces zero outline strokes; every interior output pixel carries the
one common value `celChannel` — the N-level quantization of the input
color after the saturation boost and shadow/highlight adjustment, with
alpha 255 — so the output is flat there, while the one-pixel border
keeps its initial transparent black. -/
theorem archerOut_uniform_flat (sq : ℚ → ℚ) (P : ArcherParams)
    (r g b : ℚ) (w h : ℤ) (hsq : sq 0 = 0) :
    strokes sq (uniformSrc r g b) w h = [] ∧
    (∀ x y : ℤ, ∀ c : ℕ, 1 ≤ x → x < w - 1 → 1 ≤ y → y < h - 1 →
      archerOut sq P (uniformSrc r g b) w h x y c = celChannel P r g b c) ∧
    (∀ x y : ℤ, ∀ c : ℕ, (x = 0 ∨ y = 0 ∨ x = w - 1 ∨ y = h - 1) →
      archerOut sq P (uniformSrc r g b) w h x y c = 0) := by
  refine ⟨strokes_uniform_nil sq hsq r g b w h, ?_, ?_⟩
  · intro x y c hx1 hx2 hy1 hy2
    have hd : discMax sq (uniformSrc r g b) w h ⌊P.edgeThickness⌋ x y = 0 :=
      discMax_uniform_zero sq hsq r g b w h _ x y
    simp only [archerOut]
    rw [hd, if_neg (fun hc => absurd hc.2 (by norm_num))]
    exact pass1At_uniform P r g b w h x y c hx1 hx2 hy1 hy2
  · intro x y c hb
    exact archerOut_border_zero sq P _ w h x y c hb

/-- Witness for the amended C3: the uniform (10, 20, 30) frame on a 5×4
canvas with the default settings and the `Math.sqrt` stand-in. -/
theorem archerOut_uniform_flat_witness :
    strokes sqZero (uniformSrc 10 20 30) 5 4 = [] ∧
    (∀ x y : ℤ, ∀ c : ℕ, 1 ≤ x → x < 5 - 1 → 1 ≤ y → y < 4 - 1 →
      archerOut sqZero defaultArcher (uniformSrc 10 20 30) 5 4 x y c
        = celChannel defaultArcher 10 20 30 c) ∧
    (∀ x y : ℤ, ∀ c : ℕ, (x = 0 ∨ y = 0 ∨ x = 5 - 1 ∨ y = 4 - 1) →
      archerOut sqZero defaultArcher (uniformSrc 10 20 30) 5 4 x y c = 0) :=
  archerOut_uniform_flat sqZero defaultArcher 10 20 30 5 4 rfl

/-- C10: every pixel on the outermost one-pixel border of the output
buffer keeps its initial transparent black (all four channels 0) for
every source frame and every parameter choice: the first pass writes only
interior pixels and the second pass only rescales first-pass values. -/
theorem archerOut_keeps_border (sq : ℚ → ℚ) (P : ArcherParams)
    (src : ℤ → ℚ) (w h x y : ℤ) (c : ℕ)
    (hb : x = 0 ∨ y = 0 ∨ x = w - 1 ∨ y = h - 1) :
    archerOut sq P src w h x y c = 0 :=
  archerOut_border_zero sq P src w h x y c hb

/-- Witness for C10: the left-border pixel (0, 1) of a 3×3 frame filled
with the constant value 200. -/
theorem archerOut_keeps_border_witness :
    archerOut sqZero defaultArcher (fun _ => 200) 3 3 0 1 0 = 0 :=
  archerOut_keeps_border sqZero defaultArcher (fun _ => 200) 3 3 0 1 0
    (Or.inl rfl)
